import Mathlib

/-!
Shallow embedding of the analytics engine of the trading-journal
application (src/utils/analytics.ts together with the type declarations
in src/types): the functions calculateMetrics, generateEquityCurve and
getTradeViolations, over the Trade / UserProfile / Metrics / EquityPoint
data model.

Modelling conventions:
* JavaScript numbers are modelled as rationals (ℚ).  The one place where
  an IEEE non-finite value can arise in this code — the unguarded
  division dd / maxEquity in calculateMetrics — is modelled explicitly
  with the type JsNum (finite rational, +Infinity, -Infinity, NaN) and a
  division operator jsDiv following the JavaScript rules for division by
  zero; comparisons with NaN are false, as in JavaScript.
* Array.prototype.sort with a numeric key comparator is a stable sort;
  a stable sort's output is uniquely determined by the key order and the
  input order, so it is modelled by List.insertionSort (which is stable)
  on the same key.
* Date.now() is modelled by an explicit parameter now, and
  Date(...).toLocaleDateString() by an explicit parameter dateLabel,
  both standing for the ambient environment of the call.
* Number(x.toFixed(2)) is modelled as rounding to two decimal places
  with round-half-up (the ECMAScript toFixed rule), and toFixed(0) as
  rounding to an integer.
-/

inductive Direction where
  | LONG
  | SHORT
deriving DecidableEq, Repr

inductive TradeStatus where
  | OPEN
  | CLOSED
  | PENDING
deriving DecidableEq, Repr

inductive AssetClass where
  | FOREX
  | CRYPTO
  | INDICES
  | COMMODITIES
  | STOCKS
deriving DecidableEq, Repr

inductive Session where
  | ASIA
  | LONDON
  | NY
  | OVERLAP
deriving DecidableEq, Repr

/-- The Trade record of src/types (field for field; timestamps are epoch
milliseconds, optional fields are Option). -/
structure Trade where
  id : String
  accountId : String
  symbol : String
  assetClass : AssetClass
  direction : Direction
  entryDate : ℚ
  exitDate : Option ℚ
  entryPrice : ℚ
  exitPrice : Option ℚ
  size : ℚ
  grossPnL : ℚ
  commission : ℚ
  swap : ℚ
  netPnL : ℚ
  initialStopLoss : ℚ
  takeProfit : Option ℚ
  riskAmount : ℚ
  riskMultiple : ℚ
  strategy : String
  setup : String
  timeframe : String
  session : Session
  confidence : ℚ
  mistake : Option (List String)
  notes : String
  images : Option (List String)
  status : TradeStatus
deriving DecidableEq, Repr

/-- The UserProfile record of src/types. -/
structure UserProfile where
  name : String
  accountType : String
  startBalance : ℚ
  currency : String
  maxRiskPerTrade : ℚ
  maxDailyLoss : ℚ
  monthlyGoal : ℚ
  avatarUrl : Option String
  bio : Option String
  customStrategies : Option (List String)
  customSetups : Option (List String)
deriving DecidableEq, Repr

/-- A JavaScript number that may be non-finite: a finite rational,
positive or negative Infinity, or NaN. -/
inductive JsNum where
  | fin : ℚ → JsNum
  | posInf : JsNum
  | negInf : JsNum
  | nan : JsNum
deriving DecidableEq, Repr

namespace JsNum

/-- JavaScript division of two finite numbers: a / 0 is +Infinity,
-Infinity or NaN according to the sign of a. -/
def jsDiv (a b : ℚ) : JsNum :=
  if b = 0 then (if a > 0 then posInf else if a < 0 then negInf else nan)
  else fin (a / b)

/-- Multiplication of a JavaScript number by the positive constant 100. -/
def jsMul100 : JsNum → JsNum
  | fin q => fin (q * 100)
  | posInf => posInf
  | negInf => negInf
  | nan => nan

/-- The JavaScript strict greater-than comparison; any comparison with
NaN is false. -/
def jsGt : JsNum → JsNum → Bool
  | nan, _ => false
  | _, nan => false
  | fin a, fin b => decide (b < a)
  | fin _, posInf => false
  | fin _, negInf => true
  | posInf, posInf => false
  | posInf, _ => true
  | negInf, _ => false

/-- Whether a JavaScript number is finite (neither Infinity nor NaN). -/
def isFinite : JsNum → Bool
  | fin _ => true
  | _ => false

end JsNum

/-- The sort key used by all three functions: a.exitDate || 0, i.e. the
exit date with a missing exit date read as 0. -/
def exitKey (t : Trade) : ℚ := t.exitDate.getD 0

/-- JavaScript truthiness of the optional exitDate field: defined and
nonzero. -/
def truthyExit : Option ℚ → Bool
  | some d => decide (d ≠ 0)
  | none => false

/-- Ascending comparison on the exitDate sort key. -/
def exitLE (a b : Trade) : Prop := exitKey a ≤ exitKey b

/-- Descending comparison on the exitDate sort key. -/
def exitGE (a b : Trade) : Prop := exitKey b ≤ exitKey a

instance : DecidableRel exitLE :=
  fun a b => inferInstanceAs (Decidable (exitKey a ≤ exitKey b))

instance : DecidableRel exitGE :=
  fun a b => inferInstanceAs (Decidable (exitKey b ≤ exitKey a))

instance : IsTotal Trade exitLE := ⟨fun a b => le_total (exitKey a) (exitKey b)⟩

instance : IsTrans Trade exitLE := ⟨fun _ _ _ h1 h2 => le_trans h1 h2⟩

instance : IsTotal Trade exitGE := ⟨fun a b => le_total (exitKey b) (exitKey a)⟩

instance : IsTrans Trade exitGE := ⟨fun _ _ _ h1 h2 => le_trans h2 h1⟩

/-- The ascending stable sort by exitDate used by calculateMetrics and
generateEquityCurve: .sort((a, b) => (a.exitDate || 0) - (b.exitDate || 0)).
Array.prototype.sort is stable, and a stable sort is uniquely determined
by the key order and the input order, so insertionSort (stable) models it. -/
def sortByExitAsc (l : List Trade) : List Trade :=
  l.insertionSort exitLE

/-- The closed-and-sorted trade list both calculateMetrics and
generateEquityCurve start from:
trades.filter(t => t.status === TradeStatus.CLOSED).sort(by exitDate). -/
def closedSortedTrades (trades : List Trade) : List Trade :=
  sortByExitAsc (trades.filter fun t => decide (t.status = TradeStatus.CLOSED))

/-- The Metrics record returned by calculateMetrics.  maxDrawdownPercent
is a JsNum because its computation contains the one unguarded division of
the file. -/
structure Metrics where
  totalTrades : ℕ
  winRate : ℚ
  profitFactor : ℚ
  expectancy : ℚ
  averageWin : ℚ
  averageLoss : ℚ
  maxDrawdown : ℚ
  maxDrawdownPercent : JsNum
  netProfit : ℚ
  largestWin : ℚ
  largestLoss : ℚ
  currentStreak : ℤ
deriving DecidableEq, Repr

/-- The mutable accumulator of calculateMetrics's forEach loop. -/
structure MetricsAcc where
  wins : ℕ
  grossProfit : ℚ
  grossLoss : ℚ
  maxEquity : ℚ
  currentEquity : ℚ
  maxDD : ℚ
  maxDDPercent : JsNum
  largestWin : ℚ
  largestLoss : ℚ
  currentStreak : ℤ
deriving DecidableEq, Repr

/-- One iteration of calculateMetrics's forEach loop. -/
def metricsStep (acc : MetricsAcc) (trade : Trade) : MetricsAcc :=
  let pnl := trade.netPnL
  let currentEquity := acc.currentEquity + pnl
  let maxEquity := if currentEquity > acc.maxEquity then currentEquity else acc.maxEquity
  let dd := maxEquity - currentEquity
  let ddPercent := JsNum.jsMul100 (JsNum.jsDiv dd maxEquity)
  let maxDD := if dd > acc.maxDD then dd else acc.maxDD
  let maxDDPercent := if JsNum.jsGt ddPercent acc.maxDDPercent then ddPercent else acc.maxDDPercent
  if pnl > 0 then
    { acc with
      currentEquity := currentEquity, maxEquity := maxEquity,
      maxDD := maxDD, maxDDPercent := maxDDPercent,
      wins := acc.wins + 1,
      grossProfit := acc.grossProfit + pnl,
      largestWin := if pnl > acc.largestWin then pnl else acc.largestWin,
      currentStreak := if acc.currentStreak ≥ 0 then acc.currentStreak + 1 else 1 }
  else
    { acc with
      currentEquity := currentEquity, maxEquity := maxEquity,
      maxDD := maxDD, maxDDPercent := maxDDPercent,
      grossLoss := acc.grossLoss + |pnl|,
      largestLoss := if pnl < acc.largestLoss then pnl else acc.largestLoss,
      currentStreak := if acc.currentStreak ≤ 0 then acc.currentStreak - 1 else -1 }

/-- calculateMetrics of src/utils/analytics.ts.  In the source, winPct
and lossPct are computed unconditionally but only read under the
totalTrades > 0 guard of expectancy; the embedding computes them under
that guard. -/
def calculateMetrics (trades : List Trade) (initialBalance : ℚ) : Metrics :=
  let closedTrades := closedSortedTrades trades
  let acc := closedTrades.foldl metricsStep
    { wins := 0, grossProfit := 0, grossLoss := 0,
      maxEquity := initialBalance, currentEquity := initialBalance,
      maxDD := 0, maxDDPercent := JsNum.fin 0,
      largestWin := 0, largestLoss := 0, currentStreak := 0 }
  let totalTrades := closedTrades.length
  let losses : ℤ := (totalTrades : ℤ) - (acc.wins : ℤ)
  let winRate := if totalTrades > 0 then ((acc.wins : ℚ) / (totalTrades : ℚ)) * 100 else 0
  let profitFactor :=
    if acc.grossLoss > 0 then acc.grossProfit / acc.grossLoss
    else if acc.grossProfit > 0 then 999 else 0
  let averageWin := if acc.wins > 0 then acc.grossProfit / (acc.wins : ℚ) else 0
  let averageLoss := if losses > 0 then acc.grossLoss / (losses : ℚ) else 0
  let netProfit := acc.currentEquity - initialBalance
  let expectancy :=
    if totalTrades > 0 then
      ((acc.wins : ℚ) / (totalTrades : ℚ)) * averageWin
        - ((losses : ℚ) / (totalTrades : ℚ)) * averageLoss
    else 0
  { totalTrades := totalTrades
    winRate := winRate
    profitFactor := profitFactor
    expectancy := expectancy
    averageWin := averageWin
    averageLoss := averageLoss
    maxDrawdown := acc.maxDD
    maxDrawdownPercent := acc.maxDDPercent
    netProfit := netProfit
    largestWin := acc.largestWin
    largestLoss := acc.largestLoss
    currentStreak := acc.currentStreak }

/-- The EquityPoint record of src/types. -/
structure EquityPoint where
  date : String
  timestamp : ℚ
  equity : ℚ
  drawdown : ℚ
deriving DecidableEq, Repr

/-- Rounding to two decimal places, the model of Number(x.toFixed(2)):
the ECMAScript toFixed rule is round-half-up, which is Mathlib's round. -/
def round2 (q : ℚ) : ℚ := ((round (q * 100) : ℤ) : ℚ) / 100

/-- The forEach loop of generateEquityCurve: the points emitted after the
synthetic Start point, given the running balance and running peak. -/
def curvePoints (dateLabel : ℚ → String) : ℚ → ℚ → List Trade → List EquityPoint
  | _, _, [] => []
  | currentBalance, maxBalance, trade :: rest =>
    let currentBalance' := currentBalance + trade.netPnL
    let maxBalance' := if currentBalance' > maxBalance then currentBalance' else maxBalance
    let ddPercent :=
      if maxBalance' > 0 then ((maxBalance' - currentBalance') / maxBalance') * 100 else 0
    { date := dateLabel (exitKey trade)
      timestamp := exitKey trade
      equity := round2 currentBalance'
      drawdown := round2 ddPercent } :: curvePoints dateLabel currentBalance' maxBalance' rest

/-- generateEquityCurve of src/utils/analytics.ts.  now models
Date.now(); dateLabel models new Date(t).toLocaleDateString(). -/
def generateEquityCurve (trades : List Trade) (initialBalance : ℚ)
    (now : ℚ) (dateLabel : ℚ → String) : List EquityPoint :=
  let sortedTrades := closedSortedTrades trades
  { date := "Start"
    timestamp := match sortedTrades with
      | [] => now
      | t :: _ => t.entryDate - 86400000
    equity := initialBalance
    drawdown := 0 } :: curvePoints dateLabel initialBalance initialBalance sortedTrades

/-- The over-risking violation message; the interpolated JavaScript
number formatting is modelled by toString on the rational (toFixed(0) as
rounding to an integer). -/
def overRiskMsg (risk limit : ℚ) : String :=
  "Risk ($" ++ toString risk ++ ") exceeds max limit ($" ++ toString (round limit : ℤ) ++ ")"

def excessLossMsg : String := "Loss exceeded planned risk significantly (Slippage/Discipline)"

def outsideLondonMsg : String := "Trade executed outside London session"

def outsideNYMsg : String := "Trade executed outside NY session"

def outsideAsiaMsg : String := "Trade executed outside Asia session"

def revengeMsg : String := "Potential revenge trading (entry <30m after loss)"

/-- The candidate preceding trades of the revenge-trading check:
allTrades.filter(t => t.id !== trade.id && t.exitDate && t.exitDate <= trade.entryDate). -/
def revengeCandidates (trade : Trade) (allTrades : List Trade) : List Trade :=
  allTrades.filter fun t =>
    decide (t.id ≠ trade.id) && truthyExit t.exitDate && decide (exitKey t ≤ trade.entryDate)

/-- The candidates sorted descending by exit date:
.sort((a, b) => (b.exitDate || 0) - (a.exitDate || 0)). -/
def revengeSorted (trade : Trade) (allTrades : List Trade) : List Trade :=
  (revengeCandidates trade allTrades).insertionSort exitGE

/-- The UTC hour of an epoch-millisecond timestamp, the model of
new Date(t).getUTCHours(). -/
def getUTCHours (t : ℚ) : ℤ := (⌊t / 3600000⌋ : ℤ) % 24

/-- Section 1 of getTradeViolations: the over-risking and excess-loss
pushes. -/
def riskViolations (trade : Trade) (profile : Option UserProfile) : List String :=
  let MAX_RISK_AMOUNT : ℚ := match profile with
    | some p => p.startBalance * p.maxRiskPerTrade / 100
    | none => 2000
  (if trade.riskAmount > MAX_RISK_AMOUNT
    then [overRiskMsg trade.riskAmount MAX_RISK_AMOUNT] else [])
    ++ (if trade.netPnL < 0 ∧ |trade.netPnL| > trade.riskAmount * (3 / 2) ∧ trade.riskAmount > 0
      then [excessLossMsg] else [])

/-- Section 2 of getTradeViolations: the session-window push. -/
def sessionViolations (trade : Trade) : List String :=
  let entryHour := getUTCHours trade.entryDate
  match trade.session with
  | Session.LONDON => if entryHour < 7 ∨ entryHour ≥ 17 then [outsideLondonMsg] else []
  | Session.NY => if entryHour < 12 ∨ entryHour ≥ 22 then [outsideNYMsg] else []
  | Session.ASIA => if ¬(entryHour ≥ 22 ∨ entryHour < 9) then [outsideAsiaMsg] else []
  | Session.OVERLAP => []

/-- Section 3 of getTradeViolations: the revenge-trading push. -/
def revengeViolations (trade : Trade) (allTrades : List Trade) : List String :=
  match revengeSorted trade allTrades with
  | [] => []
  | lastTrade :: _ =>
    if lastTrade.netPnL < 0 ∧ truthyExit lastTrade.exitDate = true then
      (if trade.entryDate - exitKey lastTrade < 1800000 then [revengeMsg] else [])
    else []

/-- getTradeViolations of src/utils/analytics.ts (the spec's
detectViolations).  The pushes onto the violations array become list
concatenation in source order. -/
def getTradeViolations (trade : Trade) (allTrades : List Trade)
    (profile : Option UserProfile) : List String :=
  riskViolations trade profile ++ sessionViolations trade ++ revengeViolations trade allTrades

/-- A baseline trade with every field zeroed or empty, used to build the
concrete trades of the examples below. -/
def t0 : Trade :=
  { id := "", accountId := "", symbol := "", assetClass := AssetClass.FOREX,
    direction := Direction.LONG, entryDate := 0, exitDate := none,
    entryPrice := 0, exitPrice := none, size := 0, grossPnL := 0,
    commission := 0, swap := 0, netPnL := 0, initialStopLoss := 0,
    takeProfit := none, riskAmount := 0, riskMultiple := 0, strategy := "",
    setup := "", timeframe := "", session := Session.OVERLAP, confidence := 0,
    mistake := none, notes := "", images := none, status := TradeStatus.CLOSED }

/-- An OPEN trade with a set exitDate, used to witness that the revenge
search ignores status. -/
def openPrev : Trade :=
  { t0 with
    id := "P",
    exitDate := some 100,
    netPnL := -1,
    status := TradeStatus.OPEN }

/-- The running-drawdown-percent sequence of the forEach walk shared by
calculateMetrics and generateEquityCurve (before any guard or rounding),
given the running balance and running peak. -/
def ddList : ℚ → ℚ → List Trade → List ℚ
  | _, _, [] => []
  | bal, mx, t :: rest =>
    let bal' := bal + t.netPnL
    let mx' := if bal' > mx then bal' else mx
    ((mx' - bal') / mx' * 100) :: ddList bal' mx' rest

lemma sortByExitAsc_perm (l : List Trade) : (sortByExitAsc l).Perm l :=
  List.perm_insertionSort exitLE l

lemma sortByExitAsc_sorted (l : List Trade) : List.Sorted exitLE (sortByExitAsc l) :=
  List.sorted_insertionSort exitLE l

lemma closedSortedTrades_perm (trades : List Trade) :
    (closedSortedTrades trades).Perm
      (trades.filter fun t => decide (t.status = TradeStatus.CLOSED)) :=
  sortByExitAsc_perm _

lemma metricsStep_currentEquity (acc : MetricsAcc) (t : Trade) :
    (metricsStep acc t).currentEquity = acc.currentEquity + t.netPnL := by
  by_cases h : t.netPnL > 0 <;> simp [metricsStep, h]

lemma metricsStep_maxEquity (acc : MetricsAcc) (t : Trade) :
    (metricsStep acc t).maxEquity =
      if acc.currentEquity + t.netPnL > acc.maxEquity
        then acc.currentEquity + t.netPnL else acc.maxEquity := by
  by_cases h : t.netPnL > 0 <;> simp [metricsStep, h]

lemma metricsStep_maxDDPercent (acc : MetricsAcc) (t : Trade) :
    (metricsStep acc t).maxDDPercent =
      (let bal := acc.currentEquity + t.netPnL
      let mx := if bal > acc.maxEquity then bal else acc.maxEquity
      let ddPercent := JsNum.jsMul100 (JsNum.jsDiv (mx - bal) mx)
      if JsNum.jsGt ddPercent acc.maxDDPercent then ddPercent else acc.maxDDPercent) := by
  by_cases h : t.netPnL > 0 <;> simp [metricsStep, h]

lemma jsGt_fin_update (x m : ℚ) :
    (if JsNum.jsGt (JsNum.fin x) (JsNum.fin m) then JsNum.fin x else JsNum.fin m)
      = JsNum.fin (max m x) := by
  rcases lt_or_le m x with h | h
  · simp [JsNum.jsGt, h, max_eq_right h.le]
  · simp [JsNum.jsGt, not_lt.mpr h, max_eq_left h]

/-- Core invariant of the metrics walk: as long as the running peak is
positive, the accumulated maxDDPercent stays finite and equals the
running maximum of the per-step drawdown percents. -/
lemma metricsFold_maxDDPercent :
    ∀ (ts : List Trade) (acc : MetricsAcc) (m : ℚ), 0 < acc.maxEquity →
      acc.maxDDPercent = JsNum.fin m →
      (List.foldl metricsStep acc ts).maxDDPercent
        = JsNum.fin (List.foldl max m (ddList acc.currentEquity acc.maxEquity ts))
  | [], acc, m, _, hm => by simpa [ddList] using hm
  | t :: rest, acc, m, hmx, hm => by
    rw [List.foldl_cons]
    have hmx' : 0 < (metricsStep acc t).maxEquity := by
      rw [metricsStep_maxEquity]
      split
      next h => linarith
      next h => exact hmx
    have hdd : JsNum.jsDiv
        ((if acc.currentEquity + t.netPnL > acc.maxEquity
            then acc.currentEquity + t.netPnL else acc.maxEquity) - (acc.currentEquity + t.netPnL))
        (if acc.currentEquity + t.netPnL > acc.maxEquity
            then acc.currentEquity + t.netPnL else acc.maxEquity)
        = JsNum.fin
          (((if acc.currentEquity + t.netPnL > acc.maxEquity
              then acc.currentEquity + t.netPnL else acc.maxEquity) - (acc.currentEquity + t.netPnL))
            / (if acc.currentEquity + t.netPnL > acc.maxEquity
              then acc.currentEquity + t.netPnL else acc.maxEquity)) := by
      have hpos : (0 : ℚ) < (if acc.currentEquity + t.netPnL > acc.maxEquity
          then acc.currentEquity + t.netPnL else acc.maxEquity) := by
        split
        next h => linarith
        next h => exact hmx
      unfold JsNum.jsDiv
      rw [if_neg (ne_of_gt hpos)]
    have hstep : (metricsStep acc t).maxDDPercent
        = JsNum.fin (max m
            (((if acc.currentEquity + t.netPnL > acc.maxEquity
                then acc.currentEquity + t.netPnL else acc.maxEquity) - (acc.currentEquity + t.netPnL))
              / (if acc.currentEquity + t.netPnL > acc.maxEquity
                then acc.currentEquity + t.netPnL else acc.maxEquity) * 100)) := by
      rw [metricsStep_maxDDPercent, hm]
      dsimp only
      rw [hdd]
      exact jsGt_fin_update _ m
    have hrec := metricsFold_maxDDPercent rest (metricsStep acc t) _ hmx' hstep
    rw [hrec, metricsStep_currentEquity, metricsStep_maxEquity]
    congr 1

lemma curvePoints_length (f : ℚ → String) :
    ∀ (ts : List Trade) (bal mx : ℚ), (curvePoints f bal mx ts).length = ts.length
  | [], _, _ => rfl
  | t :: rest, bal, mx => by
    simp only [curvePoints, List.length_cons]
    rw [curvePoints_length f rest]

lemma curvePoints_timestamps (f : ℚ → String) :
    ∀ (ts : List Trade) (bal mx : ℚ),
      (curvePoints f bal mx ts).map EquityPoint.timestamp = ts.map exitKey
  | [], _, _ => rfl
  | t :: rest, bal, mx => by
    simp only [curvePoints, List.map_cons]
    rw [curvePoints_timestamps f rest]

lemma curvePoints_drawdown (f : ℚ → String) :
    ∀ (ts : List Trade) (bal mx : ℚ), 0 < mx →
      (curvePoints f bal mx ts).map EquityPoint.drawdown = (ddList bal mx ts).map round2
  | [], _, _, _ => rfl
  | t :: rest, bal, mx, hmx => by
    have hpos : (0 : ℚ) < (if bal + t.netPnL > mx then bal + t.netPnL else mx) := by
      split
      next h => linarith
      next h => exact hmx
    simp only [curvePoints, ddList, List.map_cons]
    rw [if_pos hpos, curvePoints_drawdown f rest _ _ hpos]

lemma round2_mono : Monotone round2 := by
  intro a b h
  unfold round2
  have h1 : round (a * 100) ≤ round (b * 100) := by
    rw [round_eq, round_eq]
    exact Int.floor_mono (by linarith)
  have h2 : ((round (a * 100) : ℤ) : ℚ) ≤ ((round (b * 100) : ℤ) : ℚ) := by
    exact_mod_cast h1
  linarith

lemma round2_zero : round2 0 = 0 := by simp [round2]

lemma foldl_max_map_round2 :
    ∀ (D : List ℚ) (a : ℚ),
      List.foldl max (round2 a) (D.map round2) = round2 (List.foldl max a D)
  | [], _ => rfl
  | d :: D, a => by
    simp only [List.map_cons, List.foldl_cons]
    rw [← round2_mono.map_max, foldl_max_map_round2 D]

/-- C1, counterexample: with startingBalance 0 and a single closed losing
trade, the unguarded division dd / maxEquity in calculateMetrics divides
by zero and maxDrawdownPercent is +Infinity, not a finite number. -/
theorem calculateMetrics_zero_balance_infinite_ddPercent :
    (calculateMetrics [{ t0 with exitDate := some 1, netPnL := -100 }] 0).maxDrawdownPercent
      = JsNum.posInf := by
  with_unfolding_all decide

/-- C1, amended: the peak = 0 guard exists only in generateEquityCurve;
in calculateMetrics the division is unguarded, and maxDrawdownPercent is
a finite number whenever the starting balance is positive (the running
peak then stays positive). -/
theorem calculateMetrics_maxDrawdownPercent_finite
    (trades : List Trade) (B : ℚ) (h : 0 < B) :
    ((calculateMetrics trades B).maxDrawdownPercent).isFinite = true := by
  unfold calculateMetrics
  dsimp only
  rw [metricsFold_maxDDPercent (closedSortedTrades trades) _ 0 h rfl]
  rfl

/-- C1, witness: the amended theorem applied at starting balance 100. -/
theorem calculateMetrics_maxDrawdownPercent_finite_witness :
    (0 : ℚ) < 100 ∧
      ((calculateMetrics [{ t0 with exitDate := some 1, netPnL := -100 }] 100).maxDrawdownPercent).isFinite
        = true :=
  ⟨by norm_num, calculateMetrics_maxDrawdownPercent_finite _ 100 (by norm_num)⟩

/-- C2, counterexample: a trade with status CLOSED but no exitDate is NOT
excluded by calculateMetrics — the claim's sublist (status CLOSED and
defined exitDate) is empty here, yet the function counts the trade. -/
theorem calculateMetrics_counts_closed_without_exitDate :
    ([{ t0 with netPnL := 5 }].filter
        fun t => decide (t.status = TradeStatus.CLOSED) && t.exitDate.isSome) = ([] : List Trade)
      ∧ calculateMetrics [{ t0 with netPnL := 5 }] 100 ≠ calculateMetrics [] 100 := by
  with_unfolding_all decide

/-- C2, amended: calculateMetrics filters by status CLOSED only (a
missing exitDate is read as 0 for sorting, the trade is kept), so its
result equals its result on the sublist of CLOSED trades. -/
theorem calculateMetrics_filter_closed_eq (trades : List Trade) (B : ℚ) :
    calculateMetrics trades B
      = calculateMetrics (trades.filter fun t => decide (t.status = TradeStatus.CLOSED)) B := by
  unfold calculateMetrics
  have h : closedSortedTrades (trades.filter fun t => decide (t.status = TradeStatus.CLOSED))
      = closedSortedTrades trades := by
    unfold closedSortedTrades
    rw [List.filter_filter]
    simp only [Bool.and_self]
  rw [h]

/-- C6, counterexample: a CLOSED trade with no exitDate still produces a
curve point, so the curve length is the number of CLOSED trades plus one,
not the number of CLOSED trades with a defined exitDate plus one. -/
theorem generateEquityCurve_length_counts_closed_without_exitDate :
    (generateEquityCurve [{ t0 with netPnL := 5 }] 100 0 (fun _ => "")).length = 2
      ∧ ([{ t0 with netPnL := 5 }].filter
          fun t => decide (t.status = TradeStatus.CLOSED) && t.exitDate.isSome).length + 1 = 1 := by
  with_unfolding_all decide

/-- C6, amended: the length of the equity curve is the number of trades
with status CLOSED (with or without a defined exitDate) plus one. -/
theorem generateEquityCurve_length (trades : List Trade) (B now : ℚ) (f : ℚ → String) :
    (generateEquityCurve trades B now f).length
      = (trades.filter fun t => decide (t.status = TradeStatus.CLOSED)).length + 1 := by
  unfold generateEquityCurve
  dsimp only [List.length_cons]
  rw [curvePoints_length]
  exact congrArg (· + 1) (closedSortedTrades_perm trades).length_eq

/-- C3, counterexample: with no CLOSED trades the Start point's timestamp
is Date.now(), so two calls at different times return different outputs. -/
theorem generateEquityCurve_depends_on_now :
    generateEquityCurve [] 0 0 (fun _ => "") ≠ generateEquityCurve [] 0 1 (fun _ => "") := by
  with_unfolding_all decide

/-- C3, amended: calculateMetrics is a pure function of its arguments
(the embedding gives it no clock), and generateEquityCurve is independent
of the call time exactly when the input contains at least one CLOSED
trade; with no CLOSED trade its Start timestamp is Date.now(). -/
theorem generateEquityCurve_time_independent
    (trades : List Trade) (B now now' : ℚ) (f : ℚ → String)
    (h : trades.filter (fun t => decide (t.status = TradeStatus.CLOSED)) ≠ []) :
    generateEquityCurve trades B now f = generateEquityCurve trades B now' f := by
  have hne : closedSortedTrades trades ≠ [] := by
    intro hc
    apply h
    have hp := closedSortedTrades_perm trades
    rw [hc] at hp
    exact hp.symm.eq_nil
  unfold generateEquityCurve
  cases hcs : closedSortedTrades trades with
  | nil => exact absurd hcs hne
  | cons t rest => simp [hcs]

/-- C3, witness: the amended theorem applied to a list with one CLOSED trade. -/
theorem generateEquityCurve_time_independent_witness :
    ([{ t0 with exitDate := some 1, netPnL := 5 }].filter
        (fun t => decide (t.status = TradeStatus.CLOSED)) ≠ [])
      ∧ generateEquityCurve [{ t0 with exitDate := some 1, netPnL := 5 }] 100 0 (fun _ => "")
          = generateEquityCurve [{ t0 with exitDate := some 1, netPnL := 5 }] 100 1 (fun _ => "") :=
  ⟨by with_unfolding_all decide,
    generateEquityCurve_time_independent _ 100 0 1 _ (by with_unfolding_all decide)⟩

/-- C4, counterexample: the equity curve rounds each drawdown to two
decimals but calculateMetrics does not, so with startingBalance 3 and one
losing trade of 1 the curve's maximum drawdown is 33.33 while
maxDrawdownPercent is 100/3. -/
theorem maxDrawdownPercent_ne_curve_max :
    ((generateEquityCurve [{ t0 with exitDate := some 1, netPnL := -1 }] 3 0 (fun _ => "")).map
        EquityPoint.drawdown).foldl max 0 = 3333 / 100
      ∧ (calculateMetrics [{ t0 with exitDate := some 1, netPnL := -1 }] 3).maxDrawdownPercent
        = JsNum.fin (100 / 3)
      ∧ (3333 / 100 : ℚ) ≠ 100 / 3 := by
  have hr : round2 (100 / 3) = 3333 / 100 := by norm_num [round2, round_eq]
  have h2 : (generateEquityCurve [{ t0 with exitDate := some 1, netPnL := -1 }] 3 0
      (fun _ => "")).map EquityPoint.drawdown = [0, round2 (100 / 3)] := by
    unfold generateEquityCurve
    dsimp only [List.map_cons]
    rw [curvePoints_drawdown _ _ 3 3 (by norm_num)]
    have hdl : ddList 3 3 (closedSortedTrades [{ t0 with exitDate := some 1, netPnL := -1 }])
        = [100 / 3] := by with_unfolding_all decide
    rw [hdl]
    rfl
  refine ⟨?_, by with_unfolding_all decide, by norm_num⟩
  rw [h2, hr]
  norm_num [List.foldl]

/-- C4, amended: for a positive starting balance, the maximum of the
per-point drawdown values of the equity curve (Start point contributing
0) equals maxDrawdownPercent rounded to two decimals — not
maxDrawdownPercent itself, because the curve points round with
toFixed(2). -/
theorem curve_max_drawdown_eq_round2_maxDrawdownPercent
    (trades : List Trade) (B now : ℚ) (f : ℚ → String) (h : 0 < B) :
    ∃ q, (calculateMetrics trades B).maxDrawdownPercent = JsNum.fin q ∧
      ((generateEquityCurve trades B now f).map EquityPoint.drawdown).foldl max 0
        = round2 q := by
  refine ⟨List.foldl max 0 (ddList B B (closedSortedTrades trades)), ?_, ?_⟩
  · unfold calculateMetrics
    dsimp only
    exact metricsFold_maxDDPercent (closedSortedTrades trades) _ 0 h rfl
  · unfold generateEquityCurve
    dsimp only [List.map_cons, List.foldl_cons]
    rw [curvePoints_drawdown f _ B B h]
    have h0 : (max 0 0 : ℚ) = round2 0 := by rw [max_self, round2_zero]
    rw [h0, foldl_max_map_round2]

/-- C4, witness: the amended theorem applied at starting balance 3. -/
theorem curve_max_drawdown_eq_round2_maxDrawdownPercent_witness :
    (0 : ℚ) < 3 ∧
      ∃ q, (calculateMetrics [{ t0 with exitDate := some 1, netPnL := -1 }] 3).maxDrawdownPercent
          = JsNum.fin q ∧
        ((generateEquityCurve [{ t0 with exitDate := some 1, netPnL := -1 }] 3 0
            (fun _ => "")).map EquityPoint.drawdown).foldl max 0 = round2 q :=
  ⟨by norm_num,
    curve_max_drawdown_eq_round2_maxDrawdownPercent _ 3 0 (fun _ => "") (by norm_num)⟩

/-- C5, counterexample: four CLOSED trades sharing one exitDate; the
stable re-sort preserves their input order, so a permutation of the input
changes the walk order and the metrics (maxDrawdown 10 versus 20). -/
theorem calculateMetrics_not_perm_invariant_on_tied_exitDates :
    List.Perm
        [{ t0 with exitDate := some 1, netPnL := 10 }, { t0 with exitDate := some 1, netPnL := -10 },
          { t0 with exitDate := some 1, netPnL := 10 }, { t0 with exitDate := some 1, netPnL := -10 }]
        [{ t0 with exitDate := some 1, netPnL := 10 }, { t0 with exitDate := some 1, netPnL := 10 },
          { t0 with exitDate := some 1, netPnL := -10 }, { t0 with exitDate := some 1, netPnL := -10 }]
      ∧ calculateMetrics
          [{ t0 with exitDate := some 1, netPnL := 10 }, { t0 with exitDate := some 1, netPnL := -10 },
            { t0 with exitDate := some 1, netPnL := 10 }, { t0 with exitDate := some 1, netPnL := -10 }]
          1000
        ≠ calculateMetrics
          [{ t0 with exitDate := some 1, netPnL := 10 }, { t0 with exitDate := some 1, netPnL := 10 },
            { t0 with exitDate := some 1, netPnL := -10 }, { t0 with exitDate := some 1, netPnL := -10 }]
          1000 := by
  constructor
  · with_unfolding_all decide
  · with_unfolding_all decide

/-- C5, amended: both functions are invariant under permutations of the
input as long as no two CLOSED trades share the same sort key
exitDate || 0; with tied keys the stable sort preserves input order and
the outputs can differ. -/
theorem analytics_perm_invariant_of_distinct_exitDates
    (trades trades' : List Trade) (B now : ℚ) (f : ℚ → String)
    (hp : trades.Perm trades')
    (hd : (trades.filter fun t => decide (t.status = TradeStatus.CLOSED)).Pairwise
      fun a b => exitKey a ≠ exitKey b) :
    calculateMetrics trades B = calculateMetrics trades' B
      ∧ generateEquityCurve trades B now f = generateEquityCurve trades' B now f := by
  have hsymm : ∀ {x y : Trade}, exitKey x ≠ exitKey y → exitKey y ≠ exitKey x :=
    fun h => h.symm
  have key : closedSortedTrades trades = closedSortedTrades trades' := by
    have hfp : (trades.filter fun t => decide (t.status = TradeStatus.CLOSED)).Perm
        (trades'.filter fun t => decide (t.status = TradeStatus.CLOSED)) := hp.filter _
    have hperm : (closedSortedTrades trades).Perm (closedSortedTrades trades') :=
      ((closedSortedTrades_perm trades).trans hfp).trans (closedSortedTrades_perm trades').symm
    have hd1 : (closedSortedTrades trades).Pairwise fun a b => exitKey a ≠ exitKey b :=
      ((closedSortedTrades_perm trades).pairwise_iff hsymm).mpr hd
    have hd2 : (closedSortedTrades trades').Pairwise fun a b => exitKey a ≠ exitKey b :=
      (hperm.pairwise_iff hsymm).mp hd1
    have hlt1 : (closedSortedTrades trades).Pairwise fun a b => exitKey a < exitKey b :=
      ((sortByExitAsc_sorted _).and hd1).imp fun h => lt_of_le_of_ne h.1 h.2
    have hlt2 : (closedSortedTrades trades').Pairwise fun a b => exitKey a < exitKey b :=
      ((sortByExitAsc_sorted _).and hd2).imp fun h => lt_of_le_of_ne h.1 h.2
    haveI : IsAntisymm Trade fun a b => exitKey a < exitKey b :=
      ⟨fun _ _ h1 h2 => absurd h1 (lt_asymm h2)⟩
    exact List.eq_of_perm_of_sorted hperm hlt1 hlt2
  constructor
  · unfold calculateMetrics
    rw [key]
  · unfold generateEquityCurve
    rw [key]

/-- C5, witness: the amended theorem applied to a two-trade swap with distinct exitDates. -/
theorem analytics_perm_invariant_of_distinct_exitDates_witness :
    calculateMetrics
        [{ t0 with exitDate := some 1, netPnL := 5 }, { t0 with exitDate := some 2, netPnL := -5 }]
        100
      = calculateMetrics
        [{ t0 with exitDate := some 2, netPnL := -5 }, { t0 with exitDate := some 1, netPnL := 5 }]
        100
    ∧ generateEquityCurve
        [{ t0 with exitDate := some 1, netPnL := 5 }, { t0 with exitDate := some 2, netPnL := -5 }]
        100 0 (fun _ => "")
      = generateEquityCurve
        [{ t0 with exitDate := some 2, netPnL := -5 }, { t0 with exitDate := some 1, netPnL := 5 }]
        100 0 (fun _ => "") :=
  analytics_perm_invariant_of_distinct_exitDates _ _ 100 0 (fun _ => "")
    (by with_unfolding_all decide) (by with_unfolding_all decide)

lemma closedSortedTrades_singleton (t : Trade) (h : t.status = TradeStatus.CLOSED) :
    closedSortedTrades [t] = [t] := by
  simp [closedSortedTrades, sortByExitAsc, List.insertionSort, List.filter, h]

/-- C7, counterexample: the Start point is stamped one day before the
first trade's entryDate, which is not related to the trades' exitDates,
so with an entryDate far after the exitDate the timestamps decrease. -/
theorem generateEquityCurve_timestamps_not_monotone :
    ¬ List.Chain' (· ≤ ·)
      ((generateEquityCurve [{ t0 with entryDate := 2 * 86400000, exitDate := some 1, netPnL := 5 }]
          100 0 (fun _ => "")).map EquityPoint.timestamp) := by
  have h : (generateEquityCurve [{ t0 with entryDate := 2 * 86400000, exitDate := some 1, netPnL := 5 }]
      100 0 (fun _ => "")).map EquityPoint.timestamp = [2 * 86400000 - 86400000, 1] := by
    unfold generateEquityCurve
    dsimp only [List.map_cons]
    rw [curvePoints_timestamps, closedSortedTrades_singleton _ rfl]
    rfl
  rw [h]
  intro hc
  have h2 := (List.chain'_cons.mp hc).1
  norm_num at h2

/-- C7, amended: the curve timestamps are non-decreasing provided every
CLOSED trade has a defined exitDate at or after its entryDate; the sorted
per-trade points are always non-decreasing, and the hypothesis makes the
Start point (first entryDate minus one day) no later than the first
exitDate. -/
theorem generateEquityCurve_timestamps_monotone
    (trades : List Trade) (B now : ℚ) (f : ℚ → String)
    (h : ∀ t ∈ trades, t.status = TradeStatus.CLOSED →
      t.exitDate.isSome = true ∧ t.entryDate ≤ exitKey t) :
    List.Chain' (· ≤ ·)
      ((generateEquityCurve trades B now f).map EquityPoint.timestamp) := by
  unfold generateEquityCurve
  dsimp only [List.map_cons]
  rw [curvePoints_timestamps]
  rw [List.chain'_cons']
  constructor
  · intro y hy
    cases hcs : closedSortedTrades trades with
    | nil => rw [hcs] at hy; simp at hy
    | cons t rest =>
      rw [hcs] at hy
      simp only [List.map_cons, List.head?_cons, Option.mem_def, Option.some.injEq] at hy
      have htmem : t ∈ trades ∧ t.status = TradeStatus.CLOSED := by
        have h1 : t ∈ closedSortedTrades trades := by rw [hcs]; exact List.mem_cons_self t rest
        have h2 := (closedSortedTrades_perm trades).mem_iff.mp h1
        have h3 := List.mem_filter.mp h2
        exact ⟨h3.1, of_decide_eq_true h3.2⟩
      obtain ⟨_, hle⟩ := h t htmem.1 htmem.2
      show t.entryDate - 86400000 ≤ y
      rw [← hy]
      linarith
  · have hs : (closedSortedTrades trades).Pairwise exitLE := sortByExitAsc_sorted _
    have hm : List.Pairwise (fun a b : ℚ => a ≤ b) ((closedSortedTrades trades).map exitKey) :=
      List.pairwise_map.mpr (hs.imp fun hab => hab)
    exact hm.chain'

/-- C7, witness: the amended theorem applied to a trade closing after its entry. -/
theorem generateEquityCurve_timestamps_monotone_witness :
    (∀ t ∈ [{ t0 with entryDate := 0, exitDate := some 10, netPnL := 1 }],
        t.status = TradeStatus.CLOSED → t.exitDate.isSome = true ∧ t.entryDate ≤ exitKey t)
      ∧ List.Chain' (· ≤ ·)
        ((generateEquityCurve [{ t0 with entryDate := 0, exitDate := some 10, netPnL := 1 }]
            100 0 (fun _ => "")).map EquityPoint.timestamp) :=
  ⟨by with_unfolding_all decide,
    generateEquityCurve_timestamps_monotone _ 100 0 (fun _ => "")
      (by with_unfolding_all decide)⟩

lemma overRiskMsg_ne_revengeMsg (r l : ℚ) : overRiskMsg r l ≠ revengeMsg := by
  intro h
  have h2 := congrArg String.data h
  simp only [overRiskMsg, revengeMsg, String.data_append] at h2
  simp at h2

lemma revengeMsg_not_mem_riskViolations (trade : Trade) (profile : Option UserProfile) :
    revengeMsg ∉ riskViolations trade profile := by
  intro hmem
  simp only [riskViolations] at hmem
  rcases List.mem_append.mp hmem with h | h
  · split at h
    · simp only [List.mem_singleton] at h
      exact overRiskMsg_ne_revengeMsg _ _ h.symm
    · simp at h
  · split at h
    · simp only [List.mem_singleton] at h
      exact absurd h.symm (by decide)
    · simp at h

lemma revengeMsg_not_mem_sessionViolations (trade : Trade) :
    revengeMsg ∉ sessionViolations trade := by
  intro hmem
  simp only [sessionViolations] at hmem
  cases h : trade.session
  case LONDON =>
    rw [h] at hmem
    dsimp only at hmem
    split at hmem
    · simp only [List.mem_singleton] at hmem
      exact absurd hmem.symm (by decide)
    · simp at hmem
  case NY =>
    rw [h] at hmem
    dsimp only at hmem
    split at hmem
    · simp only [List.mem_singleton] at hmem
      exact absurd hmem.symm (by decide)
    · simp at hmem
  case ASIA =>
    rw [h] at hmem
    dsimp only at hmem
    split at hmem
    · simp only [List.mem_singleton] at hmem
      exact absurd hmem.symm (by decide)
    · simp at hmem
  case OVERLAP =>
    rw [h] at hmem
    simp at hmem

lemma mem_revengeViolations_iff (trade : Trade) (ts : List Trade) :
    revengeMsg ∈ revengeViolations trade ts ↔
      ∃ c, (revengeSorted trade ts).head? = some c ∧ c.netPnL < 0 ∧
        trade.entryDate - exitKey c < 1800000 := by
  unfold revengeViolations
  cases hrs : revengeSorted trade ts with
  | nil => simp
  | cons c rest =>
    simp only [List.head?_cons, Option.some.injEq]
    constructor
    · intro h
      split at h
      next hcond =>
        split at h
        next hwin => exact ⟨c, rfl, hcond.1, hwin⟩
        next hwin => simp at h
      next hcond => simp at h
    · rintro ⟨c', hc', hneg, hwin⟩
      subst hc'
      have hmemc : c ∈ revengeCandidates trade ts := by
        have hm : c ∈ revengeSorted trade ts := by
          rw [hrs]
          exact List.mem_cons_self c rest
        exact (List.perm_insertionSort exitGE (revengeCandidates trade ts)).mem_iff.mp hm
      have htr : truthyExit c.exitDate = true := by
        have hb := (List.mem_filter.mp hmemc).2
        simp only [Bool.and_eq_true] at hb
        exact hb.1.2
      rw [if_pos ⟨hneg, htr⟩, if_pos hwin]
      exact List.mem_singleton_self _

lemma revengeSorted_head_max (trade : Trade) (ts : List Trade) (c : Trade)
    (hc : (revengeSorted trade ts).head? = some c) :
    c ∈ revengeCandidates trade ts ∧
      ∀ c' ∈ revengeCandidates trade ts, exitKey c' ≤ exitKey c := by
  cases hrs : revengeSorted trade ts with
  | nil => rw [hrs] at hc; simp at hc
  | cons d rest =>
    rw [hrs] at hc
    simp only [List.head?_cons, Option.some.injEq] at hc
    subst hc
    constructor
    · have hm : d ∈ revengeSorted trade ts := by
        rw [hrs]
        exact List.mem_cons_self d rest
      exact (List.perm_insertionSort exitGE (revengeCandidates trade ts)).mem_iff.mp hm
    · intro c' hc'
      have hmem' : c' ∈ revengeSorted trade ts :=
        (List.perm_insertionSort exitGE (revengeCandidates trade ts)).mem_iff.mpr hc'
      rw [hrs] at hmem'
      rcases List.mem_cons.mp hmem' with rfl | hmem'
      · exact le_refl _
      · have hs : List.Sorted exitGE (revengeSorted trade ts) :=
          List.sorted_insertionSort exitGE (revengeCandidates trade ts)
        rw [hrs] at hs
        exact (List.pairwise_cons.mp hs).1 c' hmem'

lemma revengeCandidates_self_filter (trade : Trade) (ts : List Trade) :
    revengeCandidates trade ts
      = revengeCandidates trade (ts.filter fun t => decide (t.id ≠ trade.id)) := by
  unfold revengeCandidates
  rw [List.filter_filter]
  apply List.filter_congr
  intro t _
  cases h : decide (t.id ≠ trade.id) with
  | true => simp [h]
  | false => simp [h]

/-- C8, counterexample: a preceding losing trade whose exitDate is
defined but equal to 0 is excluded by the JavaScript truthiness test
t.exitDate, so although the claim's conditions (defined exitDate at or
before the entry, loss, entry within 30 minutes) all hold, no
revenge-trading warning is emitted. -/
theorem revenge_zero_exitDate_not_flagged :
    ({ t0 with id := "P", exitDate := some 0, netPnL := -100 } : Trade).id
        ≠ ({ t0 with id := "T", entryDate := 1000000 } : Trade).id
      ∧ ({ t0 with id := "P", exitDate := some 0, netPnL := -100 } : Trade).exitDate.isSome = true
      ∧ exitKey { t0 with id := "P", exitDate := some 0, netPnL := -100 }
        ≤ ({ t0 with id := "T", entryDate := 1000000 } : Trade).entryDate
      ∧ ({ t0 with id := "P", exitDate := some 0, netPnL := -100 } : Trade).netPnL < 0
      ∧ ({ t0 with id := "T", entryDate := 1000000 } : Trade).entryDate
          - exitKey { t0 with id := "P", exitDate := some 0, netPnL := -100 } < 1800000
      ∧ revengeMsg ∉ getTradeViolations { t0 with id := "T", entryDate := 1000000 }
          [{ t0 with id := "T", entryDate := 1000000 },
            { t0 with id := "P", exitDate := some 0, netPnL := -100 }] none := by
  with_unfolding_all decide

/-- C8, amended: the preceding-trade search requires a truthy (defined
and nonzero) exitDate.  The warning is emitted iff the head of the
candidates sorted descending by exitDate is a loss closed less than 30
minutes before the trade's entry; that head carries the latest exitDate
among the candidates, a missing candidate silently skips the check, and
the trade itself is excluded from the search by id. -/
theorem getTradeViolations_revenge_characterization
    (trade : Trade) (ts : List Trade) (profile : Option UserProfile) :
    (revengeMsg ∈ getTradeViolations trade ts profile ↔
      ∃ c, (revengeSorted trade ts).head? = some c ∧ c.netPnL < 0 ∧
        trade.entryDate - exitKey c < 1800000)
    ∧ (∀ c, (revengeSorted trade ts).head? = some c →
        c ∈ revengeCandidates trade ts ∧
          ∀ c' ∈ revengeCandidates trade ts, exitKey c' ≤ exitKey c)
    ∧ revengeCandidates trade ts
        = revengeCandidates trade (ts.filter fun t => decide (t.id ≠ trade.id)) := by
  refine ⟨?_, fun c hc => revengeSorted_head_max trade ts c hc,
    revengeCandidates_self_filter trade ts⟩
  unfold getTradeViolations
  rw [List.mem_append, List.mem_append]
  constructor
  · rintro ((h | h) | h)
    · exact absurd h (revengeMsg_not_mem_riskViolations trade profile)
    · exact absurd h (revengeMsg_not_mem_sessionViolations trade)
    · exact (mem_revengeViolations_iff trade ts).mp h
  · intro h
    exact Or.inr ((mem_revengeViolations_iff trade ts).mpr h)

/-- C8, witness: the characterization applied at a loss closed 100 ms before the entry. -/
theorem getTradeViolations_revenge_characterization_witness :
    revengeMsg ∈ getTradeViolations { t0 with id := "T", entryDate := 200 }
      [{ t0 with id := "P", exitDate := some 100, netPnL := -1 }] none :=
  (getTradeViolations_revenge_characterization { t0 with id := "T", entryDate := 200 }
      [{ t0 with id := "P", exitDate := some 100, netPnL := -1 }] none).1.mpr
    ⟨{ t0 with id := "P", exitDate := some 100, netPnL := -1 },
      by with_unfolding_all decide, by with_unfolding_all decide, by with_unfolding_all decide⟩

/-- C10: the candidate filter of the revenge-trading search tests only
identity, exitDate truthiness and the time bound — never the trade
status — and a trade whose exitDate is exactly 0 never qualifies. -/
theorem revengeCandidates_ignore_status (trade : Trade) (ts : List Trade) (t : Trade) :
    (t ∈ revengeCandidates trade ts ↔
      t ∈ ts ∧ t.id ≠ trade.id ∧ (∃ d, t.exitDate = some d ∧ d ≠ 0) ∧
        exitKey t ≤ trade.entryDate)
    ∧ (t.exitDate = some 0 → t ∉ revengeCandidates trade ts) := by
  have hiff : t ∈ revengeCandidates trade ts ↔
      t ∈ ts ∧ t.id ≠ trade.id ∧ (∃ d, t.exitDate = some d ∧ d ≠ 0) ∧
        exitKey t ≤ trade.entryDate := by
    unfold revengeCandidates
    rw [List.mem_filter]
    simp only [Bool.and_eq_true, decide_eq_true_eq, and_assoc]
    constructor
    · rintro ⟨hmem, hid, htr, hle⟩
      refine ⟨hmem, hid, ?_, hle⟩
      cases hex : t.exitDate with
      | none => rw [hex] at htr; simp [truthyExit] at htr
      | some d =>
        rw [hex] at htr
        simp only [truthyExit, decide_eq_true_eq] at htr
        exact ⟨d, rfl, htr⟩
    · rintro ⟨hmem, hid, ⟨d, hd, hdne⟩, hle⟩
      refine ⟨hmem, hid, ?_, hle⟩
      rw [hd]
      simp [truthyExit, hdne]
  constructor
  · exact hiff
  · intro h0 hmem
    obtain ⟨_, _, ⟨d, hd, hdne⟩, _⟩ := hiff.mp hmem
    rw [h0] at hd
    injection hd with hd0
    exact hdne hd0.symm

/-- C10, witness: an OPEN trade with a truthy exitDate qualifies as a revenge candidate. -/
theorem revengeCandidates_ignore_status_witness :
    openPrev.status = TradeStatus.OPEN
      ∧ openPrev ∈ revengeCandidates { t0 with id := "T", entryDate := 200 } [openPrev] :=
  ⟨rfl,
    (revengeCandidates_ignore_status { t0 with id := "T", entryDate := 200 }
        [openPrev] openPrev).1.mpr
      ⟨by simp, by decide, ⟨100, rfl, by norm_num⟩, by with_unfolding_all decide⟩⟩
